import Mathlib

/-!
Verification of the quantlab paper-run event relay.

This file shallowly embeds the backend's event-relay code in Lean:

* src/backend/src/utils/tradeUtils.ts        (normalizeTradeSide)
* src/backend/src/utils/dateUtils.ts         (toDateFromEngineTs, text in src/unnamed/part_007)
* src/backend/src/services/paperEvent.service.ts  (handlePaperEvent and the
  per-type handlers, with database transactions modelled by an explicit
  state plus an effect trace and a failure oracle for the SQL queries)
* src/backend/src/controllers/paper.controller.ts (startPaperRun slice)

JavaScript numbers are modelled as rationals extended with NaN and the two
infinities (an exact-arithmetic abstraction of IEEE doubles; negative zero
and rounding are not modelled).  JavaScript values are modelled by the
inductive JsVal; objects are association lists in which a later binding for
a key overrides an earlier one, which makes object-spread a list append.
-/

namespace QuantLab

/-- A JavaScript number: NaN, the infinities, or a finite value
(modelled exactly as a rational). -/
inductive JsNum where
  | nan
  | posInf
  | negInf
  | fin (q : ℚ)
deriving DecidableEq, Repr

namespace JsNum

/-- The strict greater-than comparison on JS numbers: false whenever
either side is NaN. -/
def gt : JsNum → JsNum → Bool
  | nan, _ => false
  | _, nan => false
  | posInf, posInf => false
  | posInf, _ => true
  | negInf, _ => false
  | fin _, posInf => false
  | fin _, negInf => true
  | fin a, fin b => a > b

/-- The strict less-than comparison on JS numbers: false whenever
either side is NaN. -/
def lt : JsNum → JsNum → Bool
  | nan, _ => false
  | _, nan => false
  | negInf, negInf => false
  | negInf, _ => true
  | posInf, _ => false
  | fin _, negInf => false
  | fin _, posInf => true
  | fin a, fin b => a < b

/-- JS multiplication: NaN is absorbing; infinity times zero is NaN;
otherwise the usual sign rules. -/
def mul : JsNum → JsNum → JsNum
  | nan, _ => nan
  | _, nan => nan
  | posInf, posInf => posInf
  | posInf, negInf => negInf
  | negInf, posInf => negInf
  | negInf, negInf => posInf
  | posInf, fin q => if 0 < q then posInf else if q < 0 then negInf else nan
  | negInf, fin q => if 0 < q then negInf else if q < 0 then posInf else nan
  | fin q, posInf => if 0 < q then posInf else if q < 0 then negInf else nan
  | fin q, negInf => if 0 < q then negInf else if q < 0 then posInf else nan
  | fin a, fin b => fin (a * b)

/-- JS division: NaN is absorbing; infinity over infinity is NaN; a finite
value over an infinity is 0; a nonzero finite value over zero is a signed
infinity; zero over zero is NaN.  (Negative zero is not modelled.) -/
def div : JsNum → JsNum → JsNum
  | nan, _ => nan
  | _, nan => nan
  | posInf, posInf => nan
  | posInf, negInf => nan
  | negInf, posInf => nan
  | negInf, negInf => nan
  | posInf, fin q => if q < 0 then negInf else posInf
  | negInf, fin q => if q < 0 then posInf else negInf
  | fin _, posInf => fin 0
  | fin _, negInf => fin 0
  | fin a, fin b =>
      if b = 0 then
        if 0 < a then posInf else if a < 0 then negInf else nan
      else fin (a / b)

/-- Number.isFinite. -/
def isFinite : JsNum → Bool
  | fin _ => true
  | _ => false

/-- JS truthiness of a number: NaN and 0 are falsy. -/
def truthy : JsNum → Bool
  | nan => false
  | fin q => q ≠ 0
  | _ => true

/-- String conversion of a JS number.  Finite values are abstracted as
rationals, so the digit string of a finite value is the rational's
rendering, not IEEE float formatting; every rendering consists of digits,
a sign and a slash, so it never collides with an alphabetic token such as
LONG or SELL, which is the only property the development relies on. -/
def toJsString : JsNum → String
  | nan => "NaN"
  | posInf => "Infinity"
  | negInf => "-Infinity"
  | fin q => if q.den = 1 then toString q.num else toString q.num ++ "/" ++ toString q.den

end JsNum

/-- A JavaScript value as the relay sees it after JSON parsing, plus
undefined (absent properties).  Arrays and functions are not modelled;
no payload in the relay uses them. -/
inductive JsVal where
  | null
  | undefined
  | bool (b : Bool)
  | num (n : JsNum)
  | str (s : String)
  | obj (fields : List (String × JsVal))
deriving Repr

/-- A JS object: an association list in which a later binding for a key
overrides an earlier one (JS insertion/assignment order), so that the
spread of two objects is list append. -/
abbrev JsObj := List (String × JsVal)

/-- Last-binding-wins lookup in an association list. -/
def lookupLast {α : Type} : List (String × α) → String → Option α
  | [], _ => none
  | kv :: rest, k =>
      match lookupLast rest k with
      | some w => some w
      | none => if kv.1 = k then some kv.2 else none

/-- Property lookup on a JS object. -/
def JsObj.get (o : JsObj) (k : String) : Option JsVal :=
  lookupLast o k

/-- Plain property access on an object: an absent property reads as
undefined. -/
def fieldOf (o : JsObj) (k : String) : JsVal :=
  (o.get k).getD .undefined

namespace JsVal

/-- Loose equality with null (the JS test v == null): true exactly on
null and undefined. -/
def isNullish : JsVal → Bool
  | null => true
  | undefined => true
  | _ => false

/-- JS truthiness. -/
def truthy : JsVal → Bool
  | null => false
  | undefined => false
  | bool b => b
  | num n => n.truthy
  | str s => !(s == "")
  | obj _ => true

/-- The JS typeof operator (on the modelled values). -/
def typeof : JsVal → String
  | undefined => "undefined"
  | null => "object"
  | bool _ => "boolean"
  | num _ => "number"
  | str _ => "string"
  | obj _ => "object"

/-- String(v).  A plain object stringifies to the generic object tag. -/
def toJsString : JsVal → String
  | null => "null"
  | undefined => "undefined"
  | bool true => "true"
  | bool false => "false"
  | num n => n.toJsString
  | str s => s
  | obj _ => "[object Object]"

/-- The strict test v === true. -/
def isTrue : JsVal → Bool
  | bool true => true
  | _ => false

end JsVal

/-- The nullish-coalescing operator v ?? d. -/
def coalesce (v d : JsVal) : JsVal :=
  if v.isNullish then d else v

/-- Optional-chaining property access v?.k : undefined when the receiver
is nullish or has no such property; primitives have none of the accessed
properties. -/
def propAccessOpt (v : JsVal) (k : String) : JsVal :=
  match v with
  | .obj o => fieldOf o k
  | _ => .undefined

/-! ### Character-list string primitives

The model implements trim, upper-casing and splitting over the character
list of a string (the library's String functions are iterator-based and do
not reduce inside the kernel, which the concrete witnesses below need). -/

/-- Upper-casing, as JS toUpperCase acts on the ASCII tokens the relay
compares against. -/
def jsToUpper (s : String) : String :=
  String.mk (s.toList.map Char.toUpper)

/-- Whitespace trimming from both ends, as JS trim. -/
def jsTrim (s : String) : String :=
  String.mk (((s.toList.dropWhile Char.isWhitespace).reverse.dropWhile
      Char.isWhitespace).reverse)

/-- Split a character list at every occurrence of a separator. -/
def splitOnChar (sep : Char) : List Char → List (List Char)
  | [] => [[]]
  | c :: rest =>
      match splitOnChar sep rest with
      | [] => [[]]
      | g :: gs => if c = sep then [] :: g :: gs else (c :: g) :: gs

/-! ### String-to-number coercion (the JS Number() function on strings)

Decimal literals with optional sign, fraction and exponent, the Infinity
tokens, and the empty/whitespace string (which coerces to 0) are modelled;
hex, octal and binary literals are not (no relay payload uses them). -/

/-- The natural number denoted by a list of decimal digit characters. -/
def digitsToNat (cs : List Char) : ℕ :=
  cs.foldl (fun a c => a * 10 + (c.toNat - 48)) 0

/-- Whether every character in the list is a decimal digit. -/
def allDigits (cs : List Char) : Bool :=
  cs.all (fun c => c.isDigit)

/-- Parse an unsigned decimal mantissa: digits, optionally with one dot
separating an integer part and a fractional part, at least one digit in
total. -/
def parseUnsignedMantissa (cs : List Char) : Option ℚ :=
  match splitOnChar '.' cs with
  | [ip] =>
      if ip ≠ [] ∧ allDigits ip then some (digitsToNat ip : ℚ) else none
  | [ip, fp] =>
      if (ip ≠ [] ∨ fp ≠ []) ∧ allDigits ip ∧ allDigits fp then
        some ((digitsToNat ip : ℚ) + (digitsToNat fp : ℚ) / ((10 : ℚ) ^ fp.length))
      else none
  | _ => none

/-- Split a numeric literal body into mantissa and optional exponent part
at a lower- or upper-case e.  A malformed split yields an exponent part
that fails to parse. -/
def splitExp (cs : List Char) : List Char × Option (List Char) :=
  match splitOnChar 'e' cs with
  | [m] =>
      match splitOnChar 'E' m with
      | [m'] => (m', none)
      | [m', ex] => (m', some ex)
      | _ => (cs, some ['!'])
  | [m, ex] => (m, some ex)
  | _ => (cs, some ['!'])

/-- Parse a signed decimal exponent. -/
def parseExpInt (cs : List Char) : Option ℤ :=
  match cs with
  | [] => none
  | '+' :: rest =>
      if rest ≠ [] ∧ allDigits rest then some (digitsToNat rest : ℤ) else none
  | '-' :: rest =>
      if rest ≠ [] ∧ allDigits rest then some (-(digitsToNat rest : ℤ)) else none
  | l => if allDigits l then some (digitsToNat l : ℤ) else none

/-- JS Number(s) for a string s. -/
def parseJsNumber (s : String) : JsNum :=
  let t := (jsTrim s).toList
  if t = [] then .fin 0
  else if t = "Infinity".toList ∨ t = "+Infinity".toList then .posInf
  else if t = "-Infinity".toList then .negInf
  else
    let sb : Bool × List Char :=
      match t with
      | '+' :: rest => (false, rest)
      | '-' :: rest => (true, rest)
      | _ => (false, t)
    let me := splitExp sb.2
    match parseUnsignedMantissa me.1, me.2 with
    | some m, none => .fin (if sb.1 then -m else m)
    | some m, some ex =>
        match parseExpInt ex with
        | some z =>
            .fin (if sb.1 then -(m * (10 : ℚ) ^ z) else m * (10 : ℚ) ^ z)
        | none => .nan
    | none, _ => .nan

/-- JS ToNumber on a modelled value. -/
def JsVal.toNumber : JsVal → JsNum
  | .undefined => .nan
  | .null => .fin 0
  | .bool b => .fin (if b then 1 else 0)
  | .num n => n
  | .str s => parseJsNumber s
  | .obj _ => .nan

/-! ### The trade-side normalizer (tradeUtils.ts, normalizeTradeSide) -/

/-- The two canonical trade sides the database accepts. -/
inductive DbTradeSide where
  | BUY
  | SELL
deriving DecidableEq, Repr

/-- The raw side token: String(trade?.side ?? "").toUpperCase().trim(). -/
def sideRaw (trade : JsVal) : String :=
  jsTrim (jsToUpper (coalesce (propAccessOpt trade "side") (.str "")).toJsString)

/-- Number(trade?.entry_price ?? 0). -/
def entryNum (trade : JsVal) : JsNum :=
  (coalesce (propAccessOpt trade "entry_price") (.num (.fin 0))).toNumber

/-- Number(trade?.exit_price ?? 0). -/
def exitNum (trade : JsVal) : JsNum :=
  (coalesce (propAccessOpt trade "exit_price") (.num (.fin 0))).toNumber

/-- normalizeTradeSide from src/backend/src/utils/tradeUtils.ts, translated
clause by clause.  The missing-price defaults of the source are the ?? 0
before the Number() coercion. -/
def normalizeTradeSide (trade : JsVal) : DbTradeSide :=
  if sideRaw trade = "LONG" ∨ sideRaw trade = "BUY" then .BUY
  else if sideRaw trade = "SHORT" ∨ sideRaw trade = "SELL" then .SELL
  else
    if (entryNum trade).isFinite ∧ (exitNum trade).isFinite then
      if JsNum.lt (entryNum trade) (exitNum trade) then .BUY else .SELL
    else .BUY

/-! ### The timestamp normalizer (dateUtils.ts, toDateFromEngineTs) -/

/-- The observable outcome of constructing a JS Date in the normalizer:
the current wall-clock time, a Date at a given epoch-millisecond value, or
a Date obtained by generic date-string parsing. -/
inductive DateResult where
  | now
  | ofMs (ms : JsNum)
  | parsed (s : String)
deriving DecidableEq, Repr

/-- toDateFromEngineTs from src/backend/src/utils/dateUtils.ts, translated
branch by branch: nullish input gives the current time; a number is taken
as epoch-milliseconds when strictly above 10,000,000,000 and as
epoch-seconds (times 1000) otherwise; any other value is coerced with
Number() and, when that is finite, handled by the same rule; otherwise the
value is stringified and parsed as a generic date string. -/
def toDateFromEngineTs (ts : JsVal) : DateResult :=
  match ts with
  | .null => .now
  | .undefined => .now
  | .num n =>
      if JsNum.gt n (.fin 10000000000) then .ofMs n
      else .ofMs (n.mul (.fin 1000))
  | v =>
      let asNum := v.toNumber
      if asNum.isFinite then
        if JsNum.gt asNum (.fin 10000000000) then .ofMs asNum
        else .ofMs (asNum.mul (.fin 1000))
      else .parsed v.toJsString

/-! ### The persistence-and-fanout coordinator (paperEvent.service.ts)

Each handler runs one database transaction (BEGIN, a write, COMMIT, with
ROLLBACK in the catch block) and then publishes on the run's channel.  The
model makes the database an explicit state, records the successful SQL
commands and the publish calls in a trace, and injects query failures
through an oracle with one flag per query of the transaction.  A
rolled-back transaction leaves the state unchanged; the state is updated
only when COMMIT succeeds. -/

/-- One row of the trades table as the paper-run path inserts it. -/
structure TradeRow where
  run_id : String
  run_type : String
  side : DbTradeSide
  entry_price : JsNum
  exit_price : Option JsNum
  quantity : JsNum
  pnl : JsNum
  pnl_percent : JsNum
  opened_at : DateResult
  closed_at : DateResult
  forced_close : Bool
deriving DecidableEq, Repr

/-- Number(trade.entry_price ?? 0) as handleTradeEvent computes it. -/
def tradeEntryPrice (trade : JsObj) : JsNum :=
  (coalesce (fieldOf trade "entry_price") (.num (.fin 0))).toNumber

/-- Number(trade.quantity ?? 1). -/
def tradeQuantity (trade : JsObj) : JsNum :=
  (coalesce (fieldOf trade "quantity") (.num (.fin 1))).toNumber

/-- Number(trade.pnl ?? trade.net_pnl ?? 0). -/
def tradePnl (trade : JsObj) : JsNum :=
  (coalesce (fieldOf trade "pnl")
      (coalesce (fieldOf trade "net_pnl") (.num (.fin 0)))).toNumber

/-- The pnl_percent value handleTradeEvent inserts: the payload's value
when supplied (not null), else the computed percentage when the entry
price is truthy, else 0. -/
def tradePnlPercent (trade : JsObj) : JsNum :=
  if !(fieldOf trade "pnl_percent").isNullish then (fieldOf trade "pnl_percent").toNumber
  else if (tradeEntryPrice trade).truthy then
    ((tradePnl trade).div ((tradeEntryPrice trade).mul (tradeQuantity trade))).mul (.fin 100)
  else .fin 0

/-- The values handleTradeEvent computes from the engine payload before
the INSERT, translated line by line from the source. -/
def tradeRowOf (runId : String) (trade : JsObj) : TradeRow :=
  let dbSide := normalizeTradeSide (.obj trade)
  let entryPrice := tradeEntryPrice trade
  let exitPrice : Option JsNum :=
    if (fieldOf trade "exit_price").isNullish then none
    else some (fieldOf trade "exit_price").toNumber
  let quantity := tradeQuantity trade
  let pnl := tradePnl trade
  let computedPnlPercent := tradePnlPercent trade
  let openedAt :=
    if (fieldOf trade "opened_at").truthy then toDateFromEngineTs (fieldOf trade "opened_at")
    else .now
  let closedAt :=
    if (fieldOf trade "closed_at").truthy then toDateFromEngineTs (fieldOf trade "closed_at")
    else .now
  let forcedClose := (fieldOf trade "forced_close").isTrue
  { run_id := runId
    run_type := "PAPER"
    side := dbSide
    entry_price := entryPrice
    exit_price := exitPrice
    quantity := quantity
    pnl := pnl
    pnl_percent := computedPnlPercent
    opened_at := openedAt
    closed_at := closedAt
    forced_close := forcedClose }

/-- One row of the paper_runs table, restricted to the columns this
subsystem reads or writes.  The position column stores JSON text in the
database; the model keeps the serialized value itself. -/
structure RunRow where
  status : JsVal
  exchange : JsVal
  fee_rate : JsVal
  symbol : JsVal
  timeframe : JsVal
  initial_balance : JsNum
  current_balance : JsNum
  quote_balance : Option JsNum
  base_balance : Option JsNum
  equity : Option JsNum
  last_price : Option JsNum
  position : Option JsVal
deriving Repr

/-- The database state the relay touches: the paper_runs rows (keyed by
run id) and the trades rows. -/
structure DbState where
  runs : List (String × RunRow)
  trades : List TradeRow
deriving Repr

/-- SELECT of a run row by id (last binding wins, matching the update
and insert model below). -/
def DbState.getRun (st : DbState) (runId : String) : Option RunRow :=
  lookupLast st.runs runId

/-- UPDATE of the runs whose id matches (zero matching rows update
nothing and is not an error, as in SQL). -/
def DbState.updateRun (st : DbState) (runId : String) (f : RunRow → RunRow) : DbState :=
  { st with runs := st.runs.map (fun pr => if pr.1 = runId then (pr.1, f pr.2) else pr) }

/-- INSERT of a fresh run row. -/
def DbState.insertRun (st : DbState) (runId : String) (r : RunRow) : DbState :=
  { st with runs := st.runs ++ [(runId, r)] }

/-- An entry of the effect trace: a successfully executed SQL command or
a publish call on a run's channel (the channel is paper:runId). -/
inductive Eff where
  | beginTx
  | insertTrade (row : TradeRow)
  | updateRun (runId : String)
  | commit
  | rollback
  | publish (runId : String) (event : String) (payload : JsVal)
deriving Repr

/-- Whether a trace entry is a publish call. -/
def Eff.isPublish : Eff → Bool
  | publish _ _ _ => true
  | _ => false

/-- The number of publish calls in a trace. -/
def publishCount (tr : List Eff) : ℕ :=
  (tr.filter Eff.isPublish).length

/-- Failure injection for the three queries of a handler transaction:
BEGIN, the write (INSERT or UPDATE), and COMMIT. -/
structure TxOracle where
  okBegin : Bool
  okWrite : Bool
  okCommit : Bool
deriving DecidableEq, Repr

/-- The errors a handler can raise towards the ingress caller. -/
inductive PaperError where
  | invalidPayload
  | unsupportedEventType (t : String)
  | dbFailure
deriving DecidableEq, Repr

/-- The outcome of one handler call: the database state after the call,
the result the ingress caller sees, and the effect trace. -/
structure HResult where
  db : DbState
  result : Except PaperError Unit
  trace : List Eff

/-- The channel name used by emitPaperEvent for a run. -/
def roomOf (runId : String) : String := "paper:" ++ runId

/-- The object literal spread: a run_id binding followed by the payload's
bindings, so a run_id key in the payload overrides the first binding. -/
def spreadRunId (runId : String) (p : JsObj) : JsObj :=
  ("run_id", .str runId) :: p

/-- handleTradeEvent: one transaction inserting one trade row, then a
publish of the original payload merged with the run id. -/
def handleTradeEvent (ox : TxOracle) (runId : String) (trade : JsObj) (st : DbState) :
    HResult :=
  if !ox.okBegin then { db := st, result := .error .dbFailure, trace := [.rollback] }
  else
    let row := tradeRowOf runId trade
    if !ox.okWrite then
      { db := st, result := .error .dbFailure, trace := [.beginTx, .rollback] }
    else if !ox.okCommit then
      { db := st, result := .error .dbFailure,
        trace := [.beginTx, .insertTrade row, .rollback] }
    else
      { db := { st with trades := st.trades ++ [row] }, result := .ok (),
        trace := [.beginTx, .insertTrade row, .commit,
                  .publish runId "trade" (.obj (spreadRunId runId trade))] }

/-- The values handleBalanceEvent computes from the payload. -/
structure BalanceComputed where
  quoteBalance : JsNum
  baseBalance : JsNum
  equity : JsNum
  lastPrice : Option JsNum
  positionJson : Option JsVal
deriving Repr

/-- The computation block of handleBalanceEvent, translated line by line:
quote and base balance default to 0, equity defaults to the quote balance,
last price is null unless supplied, and the position column receives the
payload's position only when that is a truthy object. -/
def balanceComputed (payload : JsObj) : BalanceComputed :=
  let quoteBalance := (coalesce (fieldOf payload "quote_balance") (.num (.fin 0))).toNumber
  let baseBalance := (coalesce (fieldOf payload "base_balance") (.num (.fin 0))).toNumber
  let equity :=
    if (fieldOf payload "equity").isNullish then quoteBalance
    else (fieldOf payload "equity").toNumber
  let lastPrice : Option JsNum :=
    if (fieldOf payload "last_price").isNullish then none
    else some (fieldOf payload "last_price").toNumber
  let positionJson : Option JsVal :=
    if (fieldOf payload "position").truthy ∧ (fieldOf payload "position").typeof = "object"
    then some (fieldOf payload "position")
    else none
  { quoteBalance := quoteBalance
    baseBalance := baseBalance
    equity := equity
    lastPrice := lastPrice
    positionJson := positionJson }

/-- The UPDATE of the run snapshot performed by handleBalanceEvent: the
current_balance and equity columns both receive the computed equity. -/
def applyBalance (c : BalanceComputed) (r : RunRow) : RunRow :=
  { r with
      current_balance := c.equity
      quote_balance := some c.quoteBalance
      base_balance := some c.baseBalance
      equity := some c.equity
      last_price := c.lastPrice
      position := c.positionJson }

/-- The object published after a balance commit: exactly the computed
fields, with the raw position value (defaulted to null), not the raw
payload. -/
def updatePayloadOf (runId : String) (payload : JsObj) (c : BalanceComputed) : JsVal :=
  .obj [("run_id", .str runId),
        ("quote_balance", .num c.quoteBalance),
        ("base_balance", .num c.baseBalance),
        ("equity", .num c.equity),
        ("last_price", match c.lastPrice with | some n => .num n | none => .null),
        ("position", coalesce (fieldOf payload "position") .null)]

/-- handleBalanceEvent: one transaction updating the run snapshot in
place, then a publish of the computed fields under the update event
name. -/
def handleBalanceEvent (ox : TxOracle) (runId : String) (payload : JsObj) (st : DbState) :
    HResult :=
  if !ox.okBegin then { db := st, result := .error .dbFailure, trace := [.rollback] }
  else
    let c := balanceComputed payload
    if !ox.okWrite then
      { db := st, result := .error .dbFailure, trace := [.beginTx, .rollback] }
    else if !ox.okCommit then
      { db := st, result := .error .dbFailure,
        trace := [.beginTx, .updateRun runId, .rollback] }
    else
      { db := st.updateRun runId (applyBalance c), result := .ok (),
        trace := [.beginTx, .updateRun runId, .commit,
                  .publish runId "update" (updatePayloadOf runId payload c)] }

/-- handleStatusEvent: one transaction writing the payload's status field
verbatim into the run row, then a publish of the raw payload.  (The
database driver maps an undefined or null parameter to SQL NULL; the
model stores the JS value as read.) -/
def handleStatusEvent (ox : TxOracle) (runId : String) (payload : JsObj) (st : DbState) :
    HResult :=
  if !ox.okBegin then { db := st, result := .error .dbFailure, trace := [.rollback] }
  else
    let status := fieldOf payload "status"
    if !ox.okWrite then
      { db := st, result := .error .dbFailure, trace := [.beginTx, .rollback] }
    else if !ox.okCommit then
      { db := st, result := .error .dbFailure,
        trace := [.beginTx, .updateRun runId, .rollback] }
    else
      { db := st.updateRun runId (fun r => { r with status := status }), result := .ok (),
        trace := [.beginTx, .updateRun runId, .commit,
                  .publish runId "status" (.obj payload)] }

/-- handlePositionEvent: no persistence, pure fanout of the raw payload. -/
def handlePositionEvent (runId : String) (payload : JsObj) (st : DbState) : HResult :=
  { db := st, result := .ok (), trace := [.publish runId "position" (.obj payload)] }

/-- handleErrorEvent: no persistence, pure fanout of the raw payload. -/
def handleErrorEvent (runId : String) (payload : JsObj) (st : DbState) : HResult :=
  { db := st, result := .ok (), trace := [.publish runId "error" (.obj payload)] }

/-- The envelope fields the ingress destructures.  A missing field is
none; the source's falsiness test also rejects the empty string. -/
structure Envelope where
  run_id : Option String
  event_type : Option String
  payload : JsObj

/-- JS falsiness of a possibly-missing string field. -/
def strFalsy : Option String → Bool
  | none => true
  | some s => s == ""

/-- handlePaperEvent: validate the envelope, then dispatch on the event
type; the candle case publishes inline (payload merged with the run id)
and an unrecognized type fails naming the received value. -/
def handlePaperEvent (ox : TxOracle) (e : Envelope) (st : DbState) : HResult :=
  if strFalsy e.run_id || strFalsy e.event_type then
    { db := st, result := .error .invalidPayload, trace := [] }
  else
    let runId := e.run_id.getD ""
    match e.event_type.getD "" with
    | "trade" => handleTradeEvent ox runId e.payload st
    | "balance" => handleBalanceEvent ox runId e.payload st
    | "position" => handlePositionEvent runId e.payload st
    | "status" => handleStatusEvent ox runId e.payload st
    | "error" => handleErrorEvent runId e.payload st
    | "candle" =>
        { db := st, result := .ok (),
          trace := [.publish runId "candle" (.obj (spreadRunId runId e.payload))] }
    | t => { db := st, result := .error (.unsupportedEventType t), trace := [] }

/-! ### The start-paper-run controller slice (paper.controller.ts)

startPaperRun validates the body, inserts the run row with status ACTIVE,
commits, responds 201 with the new run id, and only then calls the engine
asynchronously; the catch handler of that call sets the run's status to
STOPPED.  The model records the response, the engine call and the
status write in order, and takes the engine outcome as a parameter. -/

/-- The externally observable steps of startPaperRun. -/
inductive StartEff where
  | respond (status : ℕ) (runId : Option String)
  | engineStart (runId : String)
  | setStopped (runId : String)
deriving DecidableEq, Repr

/-- The request-body fields startPaperRun destructures. -/
structure StartArgs where
  algorithm_id : JsVal
  exchange : JsVal
  symbol : JsVal
  timeframe : JsVal
  initial_balance : JsVal
  fee_rate : JsVal

/-- The ACTIVE run row the controller's INSERT creates: both the initial
and the current balance receive the parsed balance, and the exchange and
fee rate fall back to the controller's defaults. -/
def startRowOf (args : StartArgs) : RunRow :=
  { status := .str "ACTIVE"
    exchange := coalesce args.exchange (.str "binance")
    fee_rate := coalesce args.fee_rate (.num (.fin (1 / 1000)))
    symbol := args.symbol
    timeframe := args.timeframe
    initial_balance := args.initial_balance.toNumber
    current_balance := args.initial_balance.toNumber
    quote_balance := none
    base_balance := none
    equity := none
    last_price := none
    position := none }

/-- startPaperRun from src/backend/src/controllers/paper.controller.ts:
the validation chain, the ACTIVE insert, the 201 response carrying the new
run id, the engine call, and the catch handler that stops the run when the
engine call fails.  algoFound stands for the algorithm ownership lookup
and newRunId for the id the insert returns. -/
def startPaperRun (args : StartArgs) (algoFound : Bool) (newRunId : String)
    (engineOk : Bool) (st : DbState) : DbState × List StartEff :=
  if !args.algorithm_id.truthy || !args.symbol.truthy || !args.timeframe.truthy
      || !args.initial_balance.truthy then
    (st, [.respond 400 none])
  else
    let parsedBalance := args.initial_balance.toNumber
    if !(parsedBalance.isFinite && JsNum.gt parsedBalance (.fin 0)) then
      (st, [.respond 400 none])
    else if !algoFound then (st, [.respond 404 none])
    else
      let created := st.insertRun newRunId (startRowOf args)
      if engineOk then
        (created, [.respond 201 (some newRunId), .engineStart newRunId])
      else
        (created.updateRun newRunId (fun r => { r with status := .str "STOPPED" }),
         [.respond 201 (some newRunId), .engineStart newRunId, .setStopped newRunId])

/-- A concrete run row used by the concrete instantiations below. -/
def sampleRun : RunRow :=
  { status := .str "ACTIVE"
    exchange := .str "binance"
    fee_rate := .num (.fin (1 / 1000))
    symbol := .str "BTCUSDT"
    timeframe := .str "1h"
    initial_balance := .fin 1000
    current_balance := .fin 1000
    quote_balance := none
    base_balance := none
    equity := none
    last_price := none
    position := none }

/-- A concrete valid start-paper-run request body. -/
def sampleArgs : StartArgs :=
  { algorithm_id := .str "a"
    exchange := .undefined
    symbol := .str "BTCUSDT"
    timeframe := .str "1h"
    initial_balance := .num (.fin 1000)
    fee_rate := .undefined }

/-! ## Theorems for the claims -/

/-- Looking a key up after updating every binding of that key applies the
update to the lookup's result. -/
theorem lookupLast_update {α : Type} (l : List (String × α)) (k : String) (f : α → α) :
    lookupLast (l.map (fun pr => if pr.1 = k then (pr.1, f pr.2) else pr)) k
      = (lookupLast l k).map f := by
  induction l with
  | nil => simp [lookupLast]
  | cons hd tl ih =>
      obtain ⟨k', v⟩ := hd
      by_cases h : k' = k <;>
        cases hl : lookupLast tl k <;>
          simp [lookupLast, ih, hl, h]

/-- A binding appended at the end wins the last-binding-wins lookup. -/
theorem lookupLast_append_single {α : Type} (l : List (String × α)) (k : String) (v : α) :
    lookupLast (l ++ [(k, v)]) k = some v := by
  induction l with
  | nil => simp [lookupLast]
  | cons hd tl ih => simp [lookupLast, ih]

/-- Reading a run row back after an UPDATE of that run id. -/
theorem getRun_updateRun (st : DbState) (runId : String) (f : RunRow → RunRow) :
    (st.updateRun runId f).getRun runId = (st.getRun runId).map f := by
  simp [DbState.updateRun, DbState.getRun, lookupLast_update]

/-- Reading a run row back after inserting it. -/
theorem getRun_insertRun (st : DbState) (runId : String) (r : RunRow) :
    (st.insertRun runId r).getRun runId = some r := by
  simp [DbState.insertRun, DbState.getRun, lookupLast_append_single]

/-- C1 counterexample.  The claim states that normalizeTradeSide of the
empty object is BUY (the default of the documented chain).  In the source
the missing prices coerce to 0 through the ?? 0 defaults, both 0 values
are finite, so the price heuristic runs and 0 < 0 fails, returning SELL:
the empty object does not reach the BUY default. -/
theorem C1_counterexample :
    normalizeTradeSide (.obj []) = .SELL ∧ normalizeTradeSide (.obj []) ≠ .BUY := by
  exact ⟨by decide, by decide⟩

/-- C1 (amended).  normalizeTradeSide is total with range BUY/SELL; an
uppercase-trimmed side of LONG or BUY yields BUY and SHORT or SELL yields
SELL; otherwise the entry and exit prices are coerced with Number after a
?? 0 default for a missing price, and whenever both coercions are finite
(which includes the absent-price case) the heuristic yields BUY exactly
when entry is less than exit, else SELL; the BUY default is reached only
when one of the coercions is NaN or infinite. -/
theorem C1_normalizeTradeSide (trade : JsVal) :
    (normalizeTradeSide trade = .BUY ∨ normalizeTradeSide trade = .SELL)
    ∧ ((sideRaw trade = "LONG" ∨ sideRaw trade = "BUY") →
        normalizeTradeSide trade = .BUY)
    ∧ ((sideRaw trade = "SHORT" ∨ sideRaw trade = "SELL") →
        normalizeTradeSide trade = .SELL)
    ∧ (sideRaw trade ≠ "LONG" → sideRaw trade ≠ "BUY" → sideRaw trade ≠ "SHORT" →
        sideRaw trade ≠ "SELL" →
        (((entryNum trade).isFinite ∧ (exitNum trade).isFinite) →
          normalizeTradeSide trade =
            (if JsNum.lt (entryNum trade) (exitNum trade) then .BUY else .SELL))
        ∧ (¬((entryNum trade).isFinite ∧ (exitNum trade).isFinite) →
          normalizeTradeSide trade = .BUY)) := by
  refine ⟨?_, ?_, ?_, ?_⟩
  · cases h : normalizeTradeSide trade
    · exact Or.inl rfl
    · exact Or.inr rfl
  · intro h
    unfold normalizeTradeSide
    rw [if_pos h]
  · intro h
    have h1 : ¬(sideRaw trade = "LONG" ∨ sideRaw trade = "BUY") := by
      rcases h with h | h <;> rw [h] <;> decide
    unfold normalizeTradeSide
    rw [if_neg h1, if_pos h]
  · intro hL hB hS hSe
    have h1 : ¬(sideRaw trade = "LONG" ∨ sideRaw trade = "BUY") := by tauto
    have h2 : ¬(sideRaw trade = "SHORT" ∨ sideRaw trade = "SELL") := by tauto
    constructor
    · intro hf
      unfold normalizeTradeSide
      rw [if_neg h1, if_neg h2, if_pos hf]
    · intro hf
      unfold normalizeTradeSide
      rw [if_neg h1, if_neg h2, if_neg hf]

/-- C1 witness: the amended theorem applied to the spec's table inputs, a
lowercase padded long side and a falling entry/exit pair. -/
theorem C1_witness :
    (sideRaw (.obj [("side", .str " long ")]) = "LONG"
      ∨ sideRaw (.obj [("side", .str " long ")]) = "BUY")
    ∧ normalizeTradeSide (.obj [("side", .str " long ")]) = .BUY
    ∧ normalizeTradeSide
        (.obj [("entry_price", .num (.fin 100)), ("exit_price", .num (.fin 90))]) = .SELL := by
  have h : sideRaw (.obj [("side", .str " long ")]) = "LONG" := by decide
  refine ⟨Or.inl h, (C1_normalizeTradeSide _).2.1 (Or.inl h), ?_⟩
  have h4 := (C1_normalizeTradeSide
      (.obj [("entry_price", .num (.fin 100)), ("exit_price", .num (.fin 90))])).2.2.2
      (by decide) (by decide) (by decide) (by decide)
  have := h4.1 (by decide)
  rw [this]
  decide

/-- C3 counterexample.  The claim keys the milliseconds branch on the
magnitude of the number, but the source compares the signed value: the
input -20000000000 has magnitude above 10,000,000,000, yet the source
takes the seconds branch and multiplies by 1000 instead of treating it as
epoch-milliseconds. -/
theorem C3_counterexample :
    |(-20000000000 : ℚ)| > 10000000000
    ∧ toDateFromEngineTs (.num (.fin (-20000000000))) = .ofMs (.fin (-20000000000000))
    ∧ DateResult.ofMs (.fin (-20000000000000)) ≠ DateResult.ofMs (.fin (-20000000000)) := by
  refine ⟨?_, ?_, by decide⟩
  · rw [abs_neg, abs_of_nonneg (by norm_num)]
    norm_num
  · norm_num [toDateFromEngineTs, JsNum.gt, JsNum.mul]

/-- C3 (amended).  toDateFromEngineTs is total: nullish input gives the
current wall-clock time; a number strictly above 10,000,000,000 (signed
comparison, not magnitude) is taken as epoch-milliseconds and any other
number as epoch-seconds (times 1000, NaN included); a string whose Number
coercion is finite follows the same signed rule on the coerced value; a
string with non-finite coercion is parsed as a generic date string; and
1700000000 and 1700000000000 denote the same instant. -/
theorem C3_toDateFromEngineTs :
    toDateFromEngineTs .null = .now
    ∧ toDateFromEngineTs .undefined = .now
    ∧ (∀ n : JsNum, toDateFromEngineTs (.num n) =
        if JsNum.gt n (.fin 10000000000) then .ofMs n else .ofMs (n.mul (.fin 1000)))
    ∧ (∀ s : String, (parseJsNumber s).isFinite = true →
        toDateFromEngineTs (.str s) =
          if JsNum.gt (parseJsNumber s) (.fin 10000000000) then .ofMs (parseJsNumber s)
          else .ofMs ((parseJsNumber s).mul (.fin 1000)))
    ∧ (∀ s : String, (parseJsNumber s).isFinite = false →
        toDateFromEngineTs (.str s) = .parsed s)
    ∧ toDateFromEngineTs (.num (.fin 1700000000)) =
        toDateFromEngineTs (.num (.fin 1700000000000)) := by
  refine ⟨rfl, rfl, fun n => rfl, ?_, ?_,
    by norm_num [toDateFromEngineTs, JsNum.gt, JsNum.mul]⟩
  · intro s h
    simp [toDateFromEngineTs, JsVal.toNumber, h]
  · intro s h
    simp [toDateFromEngineTs, JsVal.toNumber, h, JsVal.toJsString]

/-- C3 witness: the amended theorem applied to a ten-digit numeric string
(epoch-seconds) and to a non-numeric date string. -/
theorem C3_witness :
    (parseJsNumber "1700000000").isFinite = true
    ∧ toDateFromEngineTs (.str "1700000000") = .ofMs (.fin 1700000000000)
    ∧ (parseJsNumber "2024-01-01T00:00:00Z").isFinite = false
    ∧ toDateFromEngineTs (.str "2024-01-01T00:00:00Z") = .parsed "2024-01-01T00:00:00Z" := by
  have h1 : (parseJsNumber "1700000000").isFinite = true := by decide
  have h2 : (parseJsNumber "2024-01-01T00:00:00Z").isFinite = false := by decide
  have e1 := C3_toDateFromEngineTs.2.2.2.1 "1700000000" h1
  have e2 := C3_toDateFromEngineTs.2.2.2.2.1 "2024-01-01T00:00:00Z" h2
  refine ⟨h1, ?_, h2, e2⟩
  have hp : parseJsNumber "1700000000" = .fin 1700000000 := by decide
  rw [e1, hp]
  norm_num [JsNum.gt, JsNum.mul]

/-- C2.  For each of the trade, balance and status handlers: when every
query of the transaction succeeds the handler commits, and the trace is
begin, the write, commit, then exactly one publish naming the envelope's
run id; when any query fails the caller gets the error, the database state
is unchanged (in particular zero trade rows are inserted), the trace ends
in a rollback, and zero publish calls occur. -/
theorem C2_publish_iff_commit (runId : String) (p : JsObj) (st : DbState) :
    ((handleTradeEvent ⟨true, true, true⟩ runId p st).result = .ok ()
      ∧ (handleTradeEvent ⟨true, true, true⟩ runId p st).trace =
          [.beginTx, .insertTrade (tradeRowOf runId p), .commit,
           .publish runId "trade" (.obj (spreadRunId runId p))])
    ∧ ((handleBalanceEvent ⟨true, true, true⟩ runId p st).result = .ok ()
      ∧ (handleBalanceEvent ⟨true, true, true⟩ runId p st).trace =
          [.beginTx, .updateRun runId, .commit,
           .publish runId "update" (updatePayloadOf runId p (balanceComputed p))])
    ∧ ((handleStatusEvent ⟨true, true, true⟩ runId p st).result = .ok ()
      ∧ (handleStatusEvent ⟨true, true, true⟩ runId p st).trace =
          [.beginTx, .updateRun runId, .commit, .publish runId "status" (.obj p)])
    ∧ (∀ ox : TxOracle,
        ¬(ox.okBegin = true ∧ ox.okWrite = true ∧ ox.okCommit = true) →
        ∀ hr ∈ [handleTradeEvent ox runId p st, handleBalanceEvent ox runId p st,
                handleStatusEvent ox runId p st],
          hr.db = st ∧ hr.result = .error .dbFailure
            ∧ publishCount hr.trace = 0 ∧ hr.trace.getLast? = some .rollback) := by
  refine ⟨⟨rfl, rfl⟩, ⟨rfl, rfl⟩, ⟨rfl, rfl⟩, ?_⟩
  intro ox hox hr hmem
  obtain ⟨b1, b2, b3⟩ := ox
  simp only [List.mem_cons, List.not_mem_nil, or_false] at hmem
  rcases hmem with rfl | rfl | rfl <;>
    cases b1 <;> cases b2 <;> cases b3 <;>
      simp_all [handleTradeEvent, handleBalanceEvent, handleStatusEvent,
        publishCount, Eff.isPublish]

/-- C2 witness: the theorem applied at a concrete run, payload and state,
with a commit failure injected. -/
theorem C2_witness :
    (¬(true = true ∧ true = true ∧ false = true))
    ∧ (handleTradeEvent ⟨true, true, false⟩ "r1" [] ⟨[], []⟩).db = ⟨[], []⟩
    ∧ (handleTradeEvent ⟨true, true, false⟩ "r1" [] ⟨[], []⟩).result =
        .error .dbFailure
    ∧ publishCount (handleTradeEvent ⟨true, true, false⟩ "r1" [] ⟨[], []⟩).trace = 0
    ∧ (handleTradeEvent ⟨true, true, true⟩ "r1" [] ⟨[], []⟩).result = .ok () := by
  have hne : ¬(true = true ∧ true = true ∧ false = true) := by simp
  have h := (C2_publish_iff_commit "r1" [] ⟨[], []⟩).2.2.2 ⟨true, true, false⟩ hne
    (handleTradeEvent ⟨true, true, false⟩ "r1" [] ⟨[], []⟩) (by simp)
  exact ⟨hne, h.1, h.2.1, h.2.2.1, (C2_publish_iff_commit "r1" [] ⟨[], []⟩).1.1⟩

/-- C4.  handlePaperEvent rejects an envelope whose run id or event type
is missing or empty with a validation error and no side effects; a
recognized event type dispatches to exactly its handler (candle publishes
inline); an unrecognized event type fails with an unsupported-event-type
error naming the received value, again with no side effects. -/
theorem C4_handlePaperEvent (ox : TxOracle) (e : Envelope) (st : DbState) :
    ((strFalsy e.run_id = true ∨ strFalsy e.event_type = true) →
      handlePaperEvent ox e st =
        { db := st, result := .error .invalidPayload, trace := [] })
    ∧ (∀ rid t, e.run_id = some rid → e.event_type = some t →
        strFalsy e.run_id = false → strFalsy e.event_type = false →
        (t = "trade" →
          handlePaperEvent ox e st = handleTradeEvent ox rid e.payload st)
        ∧ (t = "balance" →
          handlePaperEvent ox e st = handleBalanceEvent ox rid e.payload st)
        ∧ (t = "position" →
          handlePaperEvent ox e st = handlePositionEvent rid e.payload st)
        ∧ (t = "status" →
          handlePaperEvent ox e st = handleStatusEvent ox rid e.payload st)
        ∧ (t = "error" →
          handlePaperEvent ox e st = handleErrorEvent rid e.payload st)
        ∧ (t = "candle" →
          handlePaperEvent ox e st =
            { db := st, result := .ok ()
              trace := [.publish rid "candle" (.obj (spreadRunId rid e.payload))] })
        ∧ (t ≠ "trade" → t ≠ "balance" → t ≠ "position" → t ≠ "status" →
            t ≠ "error" → t ≠ "candle" →
            handlePaperEvent ox e st =
              { db := st, result := .error (.unsupportedEventType t), trace := [] })) := by
  obtain ⟨rid0, t0, p0⟩ := e
  constructor
  · intro h
    rcases h with h | h <;> simp_all [handlePaperEvent]
  · intro rid t h1 h2 hf1 hf2
    subst h1
    subst h2
    have hf1' : strFalsy (some rid) = false := hf1
    have hf2' : strFalsy (some t) = false := hf2
    have hcond : ¬(strFalsy (some rid) || strFalsy (some t)) = true := by
      simp [hf1', hf2']
    refine ⟨?_, ?_, ?_, ?_, ?_, ?_, ?_⟩
    · intro ht
      subst ht
      unfold handlePaperEvent
      rw [if_neg hcond]
      rfl
    · intro ht
      subst ht
      unfold handlePaperEvent
      rw [if_neg hcond]
      rfl
    · intro ht
      subst ht
      unfold handlePaperEvent
      rw [if_neg hcond]
      rfl
    · intro ht
      subst ht
      unfold handlePaperEvent
      rw [if_neg hcond]
      rfl
    · intro ht
      subst ht
      unfold handlePaperEvent
      rw [if_neg hcond]
      rfl
    · intro ht
      subst ht
      unfold handlePaperEvent
      rw [if_neg hcond]
      rfl
    · intro ht1 ht2 ht3 ht4 ht5 ht6
      unfold handlePaperEvent
      rw [if_neg hcond]
      simp only [Option.getD_some]

/-- C4 witness: a missing run id is rejected with no effects, and an
unrecognized event type is rejected naming the received value. -/
theorem C4_witness :
    (strFalsy (none : Option String) = true ∨ strFalsy (some "trade") = true)
    ∧ handlePaperEvent ⟨true, true, true⟩ ⟨none, some "trade", []⟩ ⟨[], []⟩ =
        { db := ⟨[], []⟩, result := .error .invalidPayload, trace := [] }
    ∧ handlePaperEvent ⟨true, true, true⟩ ⟨some "r1", some "bogus", []⟩ ⟨[], []⟩ =
        { db := ⟨[], []⟩, result := .error (.unsupportedEventType "bogus"), trace := [] } := by
  have h1 : strFalsy (none : Option String) = true ∨ strFalsy (some "trade") = true :=
    Or.inl rfl
  refine ⟨h1, (C4_handlePaperEvent ⟨true, true, true⟩ ⟨none, some "trade", []⟩ ⟨[], []⟩).1 h1, ?_⟩
  exact ((C4_handlePaperEvent ⟨true, true, true⟩ ⟨some "r1", some "bogus", []⟩ ⟨[], []⟩).2
    "r1" "bogus" rfl rfl rfl rfl).2.2.2.2.2.2
    (by decide) (by decide) (by decide) (by decide) (by decide) (by decide)

/-- C7.  The position, error and candle events perform no persistence:
the database state is returned unchanged and the only effect is one
publish — the raw payload for position and error, and the payload merged
with the run id for candle. -/
theorem C7_pure_fanout (ox : TxOracle) (runId : String) (payload : JsObj) (st : DbState) :
    handlePositionEvent runId payload st =
      { db := st, result := .ok (), trace := [.publish runId "position" (.obj payload)] }
    ∧ handleErrorEvent runId payload st =
      { db := st, result := .ok (), trace := [.publish runId "error" (.obj payload)] }
    ∧ (runId ≠ "" →
        handlePaperEvent ox ⟨some runId, some "candle", payload⟩ st =
          { db := st, result := .ok ()
            trace := [.publish runId "candle" (.obj (spreadRunId runId payload))] }) := by
  refine ⟨rfl, rfl, ?_⟩
  intro h
  have hcond : ¬(strFalsy (some runId) || strFalsy (some "candle")) = true := by
    simp [strFalsy, h]
  unfold handlePaperEvent
  rw [if_neg hcond]
  rfl

/-- C7 witness: the theorem applied at a concrete run id, payload and
state. -/
theorem C7_witness :
    ("r1" : String) ≠ ""
    ∧ handlePaperEvent ⟨true, true, true⟩ ⟨some "r1", some "candle", [("close", .num (.fin 7))]⟩
        ⟨[], []⟩ =
      { db := ⟨[], []⟩, result := .ok ()
        trace := [.publish "r1" "candle"
          (.obj [("run_id", .str "r1"), ("close", .num (.fin 7))])] } := by
  have h : ("r1" : String) ≠ "" := by decide
  exact ⟨h, (C7_pure_fanout ⟨true, true, true⟩ "r1" [("close", .num (.fin 7))] ⟨[], []⟩).2.2 h⟩

/-- C9.  The published trade and candle objects are built by spreading the
payload after a run_id binding, so a run_id key inside the engine payload
overrides the envelope's run id in the published object; the two agree
only when the payload has no run_id key; the channel targeted is still the
envelope's run id, as the trace shows. -/
theorem C9_run_id_override (runId : String) (p : JsObj) (st : DbState) :
    (JsObj.get p "run_id" = none →
      JsObj.get (spreadRunId runId p) "run_id" = some (.str runId))
    ∧ (∀ v, JsObj.get p "run_id" = some v →
      JsObj.get (spreadRunId runId p) "run_id" = some v)
    ∧ (handleTradeEvent ⟨true, true, true⟩ runId p st).trace =
        [.beginTx, .insertTrade (tradeRowOf runId p), .commit,
         .publish runId "trade" (.obj (spreadRunId runId p))] := by
  refine ⟨?_, ?_, rfl⟩
  · intro h
    simp [spreadRunId, JsObj.get, lookupLast] at h ⊢
    simp [h]
  · intro v h
    simp [spreadRunId, JsObj.get, lookupLast] at h ⊢
    simp [h]

/-- C9 witness: with a payload that carries its own run_id, the published
object's run_id is the payload's value, not the envelope's. -/
theorem C9_witness :
    JsObj.get [("run_id", .str "other")] "run_id" = some (.str "other")
    ∧ JsObj.get (spreadRunId "r1" [("run_id", .str "other")]) "run_id" =
        some (.str "other") := by
  have h : JsObj.get [("run_id", .str "other")] "run_id" = some (.str "other") := rfl
  exact ⟨h, (C9_run_id_override "r1" [("run_id", .str "other")] ⟨[], []⟩).2.1 _ h⟩

/-- C5.  The inserted trade row's pnl_percent: when the payload lacks a
pnl_percent field, it is (pnl / (entry_price * quantity)) * 100 (in the
JS arithmetic of the model) when the entry price is a nonzero number, and
0 when the entry price coerces to 0, with pnl defaulting to 0 if absent;
when the payload supplies a non-null pnl_percent, that value (through
Number) is stored instead. -/
theorem C5_pnl_percent (runId : String) (trade : JsObj) :
    ((tradeRowOf runId trade).pnl_percent = tradePnlPercent trade)
    ∧ (JsObj.get trade "pnl_percent" = none →
        (∀ e : ℚ, tradeEntryPrice trade = .fin e → e ≠ 0 →
          tradePnlPercent trade =
            ((tradePnl trade).div ((tradeEntryPrice trade).mul (tradeQuantity trade))).mul
              (.fin 100))
        ∧ (tradeEntryPrice trade = .fin 0 → tradePnlPercent trade = .fin 0)
        ∧ (∀ e p q : ℚ, tradeEntryPrice trade = .fin e → tradePnl trade = .fin p →
            tradeQuantity trade = .fin q → e ≠ 0 → q ≠ 0 →
            tradePnlPercent trade = .fin (p / (e * q) * 100)))
    ∧ (JsObj.get trade "pnl" = none → JsObj.get trade "net_pnl" = none →
        tradePnl trade = .fin 0)
    ∧ (∀ v, JsObj.get trade "pnl_percent" = some v → v.isNullish = false →
        tradePnlPercent trade = v.toNumber) := by
  refine ⟨by simp [tradeRowOf], ?_, ?_, ?_⟩
  · intro h0
    have hf : fieldOf trade "pnl_percent" = .undefined := by
      simp [fieldOf, h0]
    refine ⟨?_, ?_, ?_⟩
    · intro e he hne
      simp [tradePnlPercent, hf, JsVal.isNullish, he, JsNum.truthy, hne]
    · intro he
      simp [tradePnlPercent, hf, JsVal.isNullish, he, JsNum.truthy]
    · intro e p q he hp hq hne hqne
      have hprod : e * q ≠ 0 := mul_ne_zero hne hqne
      simp [tradePnlPercent, hf, JsVal.isNullish, he, hp, hq, JsNum.truthy, hne,
        JsNum.mul, JsNum.div, hprod]
  · intro h1 h2
    simp [tradePnl, fieldOf, h1, h2, coalesce, JsVal.isNullish, JsVal.toNumber]
  · intro v hv hnn
    have hf : fieldOf trade "pnl_percent" = v := by
      simp [fieldOf, hv]
    simp [tradePnlPercent, hf, hnn]

/-- C5 witness: the end-to-end payload of the spec with entry price 100,
quantity 2 and pnl 10 and no pnl_percent stores (10 / (100 * 2)) * 100 = 5. -/
theorem C5_witness :
    JsObj.get [("entry_price", .num (.fin 100)), ("quantity", .num (.fin 2)),
        ("pnl", .num (.fin 10))] "pnl_percent" = none
    ∧ (tradeRowOf "r1" [("entry_price", .num (.fin 100)), ("quantity", .num (.fin 2)),
        ("pnl", .num (.fin 10))]).pnl_percent = .fin 5 := by
  have h0 : JsObj.get [("entry_price", .num (.fin 100)), ("quantity", .num (.fin 2)),
      ("pnl", .num (.fin 10))] "pnl_percent" = none := rfl
  have he : tradeEntryPrice [("entry_price", .num (.fin 100)), ("quantity", .num (.fin 2)),
      ("pnl", .num (.fin 10))] = .fin 100 := rfl
  have hp : tradePnl [("entry_price", .num (.fin 100)), ("quantity", .num (.fin 2)),
      ("pnl", .num (.fin 10))] = .fin 10 := rfl
  have hq : tradeQuantity [("entry_price", .num (.fin 100)), ("quantity", .num (.fin 2)),
      ("pnl", .num (.fin 10))] = .fin 2 := rfl
  have hval := ((C5_pnl_percent "r1" [("entry_price", .num (.fin 100)),
      ("quantity", .num (.fin 2)), ("pnl", .num (.fin 10))]).2.1 h0).2.2
      100 10 2 he hp hq (by norm_num) (by norm_num)
  have hrow := (C5_pnl_percent "r1" [("entry_price", .num (.fin 100)),
      ("quantity", .num (.fin 2)), ("pnl", .num (.fin 10))]).1
  refine ⟨h0, ?_⟩
  rw [hrow, hval]
  norm_num

/-- C6.  A committed balance event updates the run snapshot in place with
the computed quote balance, base balance, equity (defaulting to the quote
balance when the payload's equity is nullish), nullable last price and
optional position, and publishes one update event carrying exactly the
computed fields, not the raw payload. -/
theorem C6_handleBalanceEvent (runId : String) (payload : JsObj) (st : DbState) :
    (handleBalanceEvent ⟨true, true, true⟩ runId payload st).db =
        st.updateRun runId (applyBalance (balanceComputed payload))
    ∧ (handleBalanceEvent ⟨true, true, true⟩ runId payload st).trace =
        [.beginTx, .updateRun runId, .commit,
         .publish runId "update" (updatePayloadOf runId payload (balanceComputed payload))]
    ∧ ((fieldOf payload "equity").isNullish = true →
        (balanceComputed payload).equity = (balanceComputed payload).quoteBalance)
    ∧ ((fieldOf payload "equity").isNullish = false →
        (balanceComputed payload).equity = (fieldOf payload "equity").toNumber)
    ∧ (∀ r0, st.getRun runId = some r0 →
        (handleBalanceEvent ⟨true, true, true⟩ runId payload st).db.getRun runId =
          some (applyBalance (balanceComputed payload) r0))
    ∧ updatePayloadOf runId payload (balanceComputed payload) =
        .obj [("run_id", .str runId),
              ("quote_balance", .num (balanceComputed payload).quoteBalance),
              ("base_balance", .num (balanceComputed payload).baseBalance),
              ("equity", .num (balanceComputed payload).equity),
              ("last_price",
                match (balanceComputed payload).lastPrice with
                | some n => .num n
                | none => .null),
              ("position", coalesce (fieldOf payload "position") .null)] := by
  refine ⟨rfl, rfl, ?_, ?_, ?_, rfl⟩
  · intro h
    simp [balanceComputed, h]
  · intro h
    simp [balanceComputed, h]
  · intro r0 h
    have hdb : (handleBalanceEvent ⟨true, true, true⟩ runId payload st).db =
        st.updateRun runId (applyBalance (balanceComputed payload)) := rfl
    rw [hdb, getRun_updateRun, h]
    rfl

/-- C6 witness: a payload with only a quote balance defaults equity to the
quote balance, and the committed update is readable on the run row. -/
theorem C6_witness :
    (fieldOf [("quote_balance", .num (.fin 50))] "equity").isNullish = true
    ∧ (balanceComputed [("quote_balance", .num (.fin 50))]).equity =
        (balanceComputed [("quote_balance", .num (.fin 50))]).quoteBalance
    ∧ (⟨[("r1", sampleRun)], []⟩ : DbState).getRun "r1" = some sampleRun
    ∧ (handleBalanceEvent ⟨true, true, true⟩ "r1" [("quote_balance", .num (.fin 50))]
        ⟨[("r1", sampleRun)], []⟩).db.getRun "r1" =
      some (applyBalance (balanceComputed [("quote_balance", .num (.fin 50))]) sampleRun) := by
  have h1 : (fieldOf [("quote_balance", .num (.fin 50))] "equity").isNullish = true := rfl
  have h2 : (⟨[("r1", sampleRun)], []⟩ : DbState).getRun "r1" = some sampleRun := rfl
  exact ⟨h1,
    (C6_handleBalanceEvent "r1" [("quote_balance", .num (.fin 50))]
      ⟨[("r1", sampleRun)], []⟩).2.2.1 h1,
    h2,
    (C6_handleBalanceEvent "r1" [("quote_balance", .num (.fin 50))]
      ⟨[("r1", sampleRun)], []⟩).2.2.2.2.1 sampleRun h2⟩

/-- C8.  When the request is valid and the algorithm is found, but the
engine call fails, startPaperRun still responds 201 with the created run
id before the engine call, and the catch handler then sets the run's
status to STOPPED. -/
theorem C8_launch_failure (args : StartArgs) (newRunId : String) (st : DbState)
    (h1 : args.algorithm_id.truthy = true) (h2 : args.symbol.truthy = true)
    (h3 : args.timeframe.truthy = true) (h4 : args.initial_balance.truthy = true)
    (h5 : (args.initial_balance.toNumber).isFinite = true)
    (h6 : JsNum.gt (args.initial_balance.toNumber) (.fin 0) = true) :
    (startPaperRun args true newRunId false st).2 =
      [.respond 201 (some newRunId), .engineStart newRunId, .setStopped newRunId]
    ∧ Option.map RunRow.status
        ((startPaperRun args true newRunId false st).1.getRun newRunId) =
      some (.str "STOPPED") := by
  have hcond1 : ¬(!args.algorithm_id.truthy || !args.symbol.truthy
      || !args.timeframe.truthy || !args.initial_balance.truthy) = true := by
    simp [h1, h2, h3, h4]
  have hcond2 : ¬(!((args.initial_balance.toNumber).isFinite
      && JsNum.gt (args.initial_balance.toNumber) (.fin 0))) = true := by
    simp [h5, h6]
  have hred : startPaperRun args true newRunId false st =
      ((st.insertRun newRunId (startRowOf args)).updateRun newRunId
          (fun r => { r with status := .str "STOPPED" }),
       [.respond 201 (some newRunId), .engineStart newRunId, .setStopped newRunId]) := by
    simp only [startPaperRun]
    rw [if_neg hcond1, if_neg hcond2]
    rfl
  constructor
  · rw [hred]
  · rw [hred]
    show Option.map RunRow.status
      (((st.insertRun newRunId (startRowOf args)).updateRun newRunId
        (fun r => { r with status := .str "STOPPED" })).getRun newRunId) =
      some (.str "STOPPED")
    rw [getRun_updateRun, getRun_insertRun]
    rfl

/-- C8 witness: the theorem applied to a concrete valid request whose
engine call fails. -/
theorem C8_witness :
    sampleArgs.algorithm_id.truthy = true
    ∧ sampleArgs.symbol.truthy = true
    ∧ sampleArgs.timeframe.truthy = true
    ∧ sampleArgs.initial_balance.truthy = true
    ∧ (sampleArgs.initial_balance.toNumber).isFinite = true
    ∧ JsNum.gt (sampleArgs.initial_balance.toNumber) (.fin 0) = true
    ∧ (startPaperRun sampleArgs true "r1" false ⟨[], []⟩).2 =
        [.respond 201 (some "r1"), .engineStart "r1", .setStopped "r1"]
    ∧ Option.map RunRow.status
        ((startPaperRun sampleArgs true "r1" false ⟨[], []⟩).1.getRun "r1") =
      some (.str "STOPPED") := by
  have h1 : sampleArgs.algorithm_id.truthy = true := by decide
  have h2 : sampleArgs.symbol.truthy = true := by decide
  have h3 : sampleArgs.timeframe.truthy = true := by decide
  have h4 : sampleArgs.initial_balance.truthy = true := by decide
  have h5 : (sampleArgs.initial_balance.toNumber).isFinite = true := by decide
  have h6 : JsNum.gt (sampleArgs.initial_balance.toNumber) (.fin 0) = true := by decide
  have h := C8_launch_failure sampleArgs "r1" ⟨[], []⟩ h1 h2 h3 h4 h5 h6
  exact ⟨h1, h2, h3, h4, h5, h6, h.1, h.2⟩

/-- C10.  After a committed balance event the run row's current_balance
column holds the computed equity (the payload's equity when supplied,
else the quote balance), the same value written to the equity column; when
a supplied equity differs from the quote balance, current_balance is not
the quote balance. -/
theorem C10_current_balance (runId : String) (payload : JsObj) (st : DbState) :
    (∀ r0, st.getRun runId = some r0 →
      ∀ r1, (handleBalanceEvent ⟨true, true, true⟩ runId payload st).db.getRun runId =
          some r1 →
        r1.current_balance = (balanceComputed payload).equity
        ∧ r1.equity = some (balanceComputed payload).equity)
    ∧ ((fieldOf payload "equity").isNullish = false →
        (fieldOf payload "equity").toNumber ≠ (balanceComputed payload).quoteBalance →
        ∀ r0, st.getRun runId = some r0 →
        ∀ r1, (handleBalanceEvent ⟨true, true, true⟩ runId payload st).db.getRun runId =
            some r1 →
          r1.current_balance ≠ (balanceComputed payload).quoteBalance) := by
  have hdb : (handleBalanceEvent ⟨true, true, true⟩ runId payload st).db =
      st.updateRun runId (applyBalance (balanceComputed payload)) := rfl
  have key : ∀ r0, st.getRun runId = some r0 →
      ∀ r1, (handleBalanceEvent ⟨true, true, true⟩ runId payload st).db.getRun runId =
          some r1 →
        r1 = applyBalance (balanceComputed payload) r0 := by
    intro r0 h0 r1 h1
    rw [hdb, getRun_updateRun, h0] at h1
    exact (Option.some.injEq _ _).mp h1.symm
  constructor
  · intro r0 h0 r1 h1
    rw [key r0 h0 r1 h1]
    exact ⟨rfl, rfl⟩
  · intro hsup hne r0 h0 r1 h1
    rw [key r0 h0 r1 h1]
    have hequity : (balanceComputed payload).equity = (fieldOf payload "equity").toNumber := by
      simp [balanceComputed, hsup]
    show (applyBalance (balanceComputed payload) r0).current_balance ≠
      (balanceComputed payload).quoteBalance
    have hcb : (applyBalance (balanceComputed payload) r0).current_balance =
        (balanceComputed payload).equity := rfl
    rw [hcb, hequity]
    exact hne

/-- C10 witness: a balance payload supplying equity 70 with quote balance
50 leaves current_balance 70, not 50. -/
theorem C10_witness :
    (fieldOf [("quote_balance", .num (.fin 50)), ("equity", .num (.fin 70))]
        "equity").isNullish = false
    ∧ (⟨[("r1", sampleRun)], []⟩ : DbState).getRun "r1" = some sampleRun
    ∧ (∀ r1, (handleBalanceEvent ⟨true, true, true⟩ "r1"
          [("quote_balance", .num (.fin 50)), ("equity", .num (.fin 70))]
          ⟨[("r1", sampleRun)], []⟩).db.getRun "r1" = some r1 →
        r1.current_balance =
          (balanceComputed [("quote_balance", .num (.fin 50)),
            ("equity", .num (.fin 70))]).equity
        ∧ r1.current_balance ≠
          (balanceComputed [("quote_balance", .num (.fin 50)),
            ("equity", .num (.fin 70))]).quoteBalance) := by
  have h1 : (fieldOf [("quote_balance", .num (.fin 50)), ("equity", .num (.fin 70))]
      "equity").isNullish = false := rfl
  have h2 : (⟨[("r1", sampleRun)], []⟩ : DbState).getRun "r1" = some sampleRun := rfl
  have hne : (fieldOf [("quote_balance", .num (.fin 50)), ("equity", .num (.fin 70))]
      "equity").toNumber ≠ (balanceComputed [("quote_balance", .num (.fin 50)),
      ("equity", .num (.fin 70))]).quoteBalance := by
    simp [fieldOf, JsObj.get, lookupLast, balanceComputed, coalesce, JsVal.isNullish,
      JsVal.toNumber]
  refine ⟨h1, h2, ?_⟩
  intro r1 hr1
  exact ⟨((C10_current_balance "r1" [("quote_balance", .num (.fin 50)),
      ("equity", .num (.fin 70))] ⟨[("r1", sampleRun)], []⟩).1 sampleRun h2 r1 hr1).1,
    (C10_current_balance "r1" [("quote_balance", .num (.fin 50)),
      ("equity", .num (.fin 70))] ⟨[("r1", sampleRun)], []⟩).2 h1 hne sampleRun h2 r1 hr1⟩

end QuantLab
